import Mathlib

/-!
Shallow embedding of the kala economic-games simulation engine
(agents, bounded memories, saver-flip update rules, payoff strategies,
the networkx-backed graph wrapper, neighbour selection and shocks),
together with theorems settling the specification claims about it.

Python floats are modelled as exact rationals `ℚ`; the real-analysis
calibration of the log-normal noise is modelled over `ℝ`.  Python
exceptions are modelled with `Except Unit`; a caught exception is a
normal return value of the embedded function.
-/

set_option maxHeartbeats 1000000

namespace Kala

/-! ### Bounded deques (`collections.deque` with a `maxlen`)

A Python `deque(maxlen=m)` discards from the left when a `append` would
exceed `m`; with `maxlen=0` every appended element is discarded at once. -/

structure BDeque (α : Type) where
  maxlen : Nat
  items : List α
deriving Repr, DecidableEq

def dequeAppend {α : Type} (d : BDeque α) (b : α) : BDeque α :=
  if d.maxlen = 0 then { d with items := [] }
  else if d.items.length < d.maxlen then { d with items := d.items ++ [b] }
  else { d with items := d.items.tail ++ [b] }

def emptyDeque (α : Type) (m : Nat) : BDeque α := ⟨m, []⟩

/-! ### Memory rules (`kala/models/memory_rules.py`)

The deque entries appended by `SaverTraits.update` are the
`successful_round` booleans; `sum(memory)` in Python counts the `True`
entries. -/

def countTrue (m : List Bool) : Nat := (m.filter id).length

/-- Embeds `AverageMemoryRule.should_update`: fires when the memory is full
and the number of successful rounds is below `n * 0.5`. -/
def averageShouldUpdate (n : Nat) (m : List Bool) : Bool :=
  m.length = n ∧ (countTrue m : ℚ) < (n : ℚ) * (1 / 2)

/-- Embeds `FractionMemoryRule.should_update`: on a full memory, `fraction == 0`
falls back to `sum(memory) == 0`, otherwise fires when `sum(memory) < n * fraction`. -/
def fractionShouldUpdate (n : Nat) (frac : ℚ) (m : List Bool) : Bool :=
  if m.length ≠ n then false
  else if frac = 0 then countTrue m = 0
  else (countTrue m : ℚ) < (n : ℚ) * frac

/-- Embeds `AllPastMemoryRule.should_update`: full memory with no successful round. -/
def allPastShouldUpdate (n : Nat) (m : List Bool) : Bool :=
  m.length = n ∧ countTrue m = 0

/-- Embeds `AnyPastMemoryRule.should_update`: full memory with at least one lost round. -/
def anyPastShouldUpdate (n : Nat) (m : List Bool) : Bool :=
  m.length = n ∧ countTrue m < n

def weightedDot (m : List Bool) (w : List ℚ) : ℚ :=
  (List.zip m w).foldr (fun p acc => (if p.1 then p.2 else 0) + acc) 0

/-- Embeds `WeightedMemoryRule.should_update`: raises `ValueError` when the weight
vector length differs from `memory_length` (before looking at the memory), and
`np.average` raises on a zero weight total. -/
def weightedShouldUpdate (n : Nat) (w : List ℚ) (frac : ℚ) (m : List Bool) :
    Except Unit Bool :=
  if w.length ≠ n then .error ()
  else if m.length ≠ n then .ok false
  else if w.sum = 0 then .error ()
  else .ok (decide (weightedDot m w / w.sum < frac))

/-! ### Saver traits (`kala/models/traits.py`) -/

structure TraitsState where
  is_saver : Bool
  group : Option Int
  min_consumption : ℚ
  min_specialization : ℚ
  homophily : Option ℚ
  updates_from_n_last_games : Nat
  memory : Option (BDeque Bool)
deriving Repr, DecidableEq

/-- Embeds `SaverTraits.update`.  With `updates_from_n_last_games == 0` the method
returns immediately.  Otherwise it requires the `successful_round` keyword
(`ValueError` when missing, modelled by `throw`), appends it to the memory deque
(`AttributeError` when the deque is `None`), and if the rule fires it flips
`is_saver` and installs a fresh empty deque of capacity
`updates_from_n_last_games`. -/
def saverTraitsUpdate (rule : List Bool → Bool) (sr : Option Bool) (t : TraitsState) :
    Except Unit TraitsState :=
  if t.updates_from_n_last_games = 0 then .ok t
  else
    match sr with
    | none => .error ()
    | some b =>
      match t.memory with
      | none => .error ()
      | some d =>
        let d' := dequeAppend d b
        if rule d'.items then
          .ok { t with is_saver := !t.is_saver,
                       memory := some (emptyDeque Bool t.updates_from_n_last_games) }
        else
          .ok { t with memory := some d' }

/-! ### Saver properties (`kala/models/properties.py`) -/

structure SPState where
  is_saver : Bool
  savings : ℚ
  income_per_period : ℚ
  memory : Option (BDeque Bool)
deriving Repr, DecidableEq

/-- Embeds `SaverProperties.update`: `savings += income_per_period * payoff`;
with no memory it returns, otherwise it requires the `successful_round` and
`update_rule` keywords (`ValueError` when missing), appends the round to the
memory and applies the rule, flipping `is_saver` and emptying the memory when
the rule fires. -/
def spUpdate (payoff : ℚ) (sr : Option Bool) (rule : Option (List Bool → Bool))
    (s : SPState) : Except Unit SPState :=
  let s1 := { s with savings := s.savings + s.income_per_period * payoff }
  match s1.memory with
  | none => .ok s1
  | some d =>
    match sr with
    | none => .error ()
    | some b =>
      match rule with
      | none => .error ()
      | some R =>
        let d' := dequeAppend d b
        if R d'.items then
          .ok { s1 with is_saver := !s1.is_saver, memory := some (emptyDeque Bool d'.maxlen) }
        else
          .ok { s1 with memory := some d' }

/-! ### Investor agent (`kala/models/agents.py`)

`InvestorAgent.update(*args, **kwargs)` forwards the keyword arguments to
`self._properties.update` unchanged (so no `update_rule` reaches the
properties) and to `self._traits.update` with `update_rule=self.update_rule`
added. -/

structure InvAgent where
  props : SPState
  traits : TraitsState
  rule : List Bool → Bool

def invUpdate (payoff : ℚ) (sr : Option Bool) (A : InvAgent) : Except Unit InvAgent :=
  match spUpdate payoff sr none A.props with
  | .error e => .error e
  | .ok p' =>
    match saverTraitsUpdate A.rule sr A.traits with
    | .error e => .error e
    | .ok t' => .ok ⟨p', t', A.rule⟩

def iterInv : List (ℚ × Option Bool) → InvAgent → Except Unit InvAgent
  | [], A => .ok A
  | u :: l, A =>
    match invUpdate u.1 u.2 A with
    | .error e => .error e
    | .ok A' => iterInv l A'

/-! ### New-generation memory and flip rule (`kala/models/memory.py`) -/

structure MemItem where
  payoff : ℚ
  score : ℚ
  match_lost : Bool
  time : Nat
deriving Repr, DecidableEq

structure NewSaverProps where
  is_saver : Bool
deriving Repr, DecidableEq

def countLost (m : List MemItem) : Nat := (m.filter (·.match_lost)).length

/-- Embeds `SaverFlipAfterFractionLost.update`: returns unchanged unless
`len(memory) == memory.maxlen`; then counts the lost matches and flips
`is_saver` and clears the memory when
`(frac == 0 and losses > 0) or losses >= maxlen * frac`. -/
def saverFlipAfterFractionLost (frac : ℚ) (props : NewSaverProps)
    (memory : BDeque MemItem) : NewSaverProps × BDeque MemItem :=
  if memory.items.length ≠ memory.maxlen then (props, memory)
  else
    let losses := countLost memory.items
    if (frac = 0 ∧ losses > 0) ∨ ((losses : ℚ) ≥ (memory.maxlen : ℚ) * frac) then
      ({ is_saver := !props.is_saver }, { memory with items := [] })
    else
      (props, memory)

/-! ### Cooperation strategy (`kala/models/strategies.py`)

The payoff matrix is keyed by the `_saver_encoding` of the two agents
(`"saver"` / `"non-saver"`), modelled by the `Enc` type. -/

inductive Enc : Type
  | saver
  | nonsaver
deriving Repr, DecidableEq

def saverEncoding (b : Bool) : Enc := if b then .saver else .nonsaver

/-- Embeds the `payoff_matrix` dictionary built in `CooperationStrategy.__init__`
from `payoff_ss = 1 + differential_efficient` and
`payoff_sn = 1 - differential_inefficient`. -/
def payoffMatrixInit (de di : ℚ) : Enc × Enc → ℚ × ℚ
  | (.saver, .saver) => (1 + de, 1 + de)
  | (.saver, .nonsaver) => (1 - di, 1)
  | (.nonsaver, .saver) => (1, 1 - di)
  | (.nonsaver, .nonsaver) => (1, 1)

/-- Embeds the parameter inversion
`np.log(1 + np.sqrt(1 + 4 * var)) - np.log(2)` from
`CooperationStrategy.__init__`. -/
noncomputable def paramVar (v : ℝ) : ℝ :=
  Real.log (1 + Real.sqrt (1 + 4 * v)) - Real.log 2

structure CoopStrategy where
  stochastic : Bool
  payoff_matrix : Enc × Enc → ℚ × ℚ
  dist_mean : ℝ
  sigma : Enc × Enc → ℝ

/-- The constructor checks of `CooperationStrategy.__init__`: a `ValueError`
is raised unless `0 < differential_inefficient < 1` and
`differential_efficient > 0`. -/
def cooperationChecks (di de : ℚ) : Prop := 0 < di ∧ di < 1 ∧ 0 < de

/-- Embeds the state built by `CooperationStrategy.__init__`: the payoff matrix
from the two differentials and the `_sigma` map obtained by prescribing the
variance `dist_sigma_func(payoff)` and inverting the log-normal variance
equation; the `(non-saver, non-saver)` entry is a dummy value `1`. -/
noncomputable def cooperationInit (stochastic : Bool) (di de : ℚ) (dist_mean : ℝ)
    (dist_sigma_func : ℝ → ℝ) : CoopStrategy where
  stochastic := stochastic
  payoff_matrix := payoffMatrixInit de di
  dist_mean := dist_mean
  sigma := fun k =>
    match k with
    | (.saver, .saver) => Real.sqrt (paramVar (dist_sigma_func ((1 + de : ℚ) : ℝ)))
    | (.saver, .nonsaver) => Real.sqrt (paramVar (dist_sigma_func ((1 - di : ℚ) : ℝ)))
    | (.nonsaver, .saver) => Real.sqrt (paramVar (dist_sigma_func ((1 - di : ℚ) : ℝ)))
    | (.nonsaver, .nonsaver) => 1

structure CoopAgent where
  is_saver : Bool
  min_specialization : ℚ
deriving Repr, DecidableEq

/-- Embeds `CooperationStrategy.calculate_payoff` on a pair of agents: look up
the matrix at the pair's saver encodings, add each agent's
`min_specialization` to its own payoff, and in stochastic mode multiply each
saver agent's payoff by the (single) log-normal draw, whose realized value is
the parameter `draw`. -/
def calculatePayoff (st : CoopStrategy) (draw : ℚ) (a1 a2 : CoopAgent) : ℚ × ℚ :=
  let key := (saverEncoding a1.is_saver, saverEncoding a2.is_saver)
  let base := st.payoff_matrix key
  let b1 := base.1 + a1.min_specialization
  let b2 := base.2 + a2.min_specialization
  if st.stochastic then
    ((if a1.is_saver then b1 * draw else b1), (if a2.is_saver then b2 * draw else b2))
  else
    (b1, b2)

/-- Embeds `ChangeDifferentialEfficient.apply`: it overwrites the
`("saver", "saver")` entry of the active strategy's `payoff_matrix` with
`(1 + d, 1 + d)` and touches nothing else. -/
def changeDifferentialEfficientApply (d : ℚ) (st : CoopStrategy) : CoopStrategy :=
  { st with payoff_matrix := fun k =>
      if k = (.saver, .saver) then (1 + d, 1 + d) else st.payoff_matrix k }

/-! ### Random choice (`kala/utils/stats.py`)

`choice` validates the probability vector with `np.isclose` (default
tolerances `rtol=1e-5`, `atol=1e-8`), renormalizes it unless it is already
close to 1, and hands it to `numpy.random.Generator.choice`, which rejects a
vector whose total differs from 1 by more than `sqrt(eps) = 2⁻²⁶` and
otherwise samples index `i` with probability `p_i / Σp` (it normalizes the
cumulative sums).  A single draw is modelled by its discrete distribution:
the list of (element, probability) pairs.  All raised errors are
`ValueError`s, modelled by `throw ()`. -/

def npIscloseAtol : ℚ := 1 / 10 ^ 8

def npIscloseRtol : ℚ := 1 / 10 ^ 5

def npChoiceAtol : ℚ := 1 / 2 ^ 26

def npIsclose (a b : ℚ) : Bool := |a - b| ≤ npIscloseAtol + npIscloseRtol * |b|

def pyChoiceDist {α : Type} (lst : List α) (p : Option (List ℚ)) :
    Except Unit (List (α × ℚ)) :=
  match p with
  | none =>
    if lst.length = 0 then .error ()
    else .ok (lst.map (fun x => (x, 1 / (lst.length : ℚ))))
  | some ps =>
    let mass := ps.sum
    if ps.length ≠ lst.length then .error ()
    else if ps.any (fun x => x < 0) then .error ()
    else if npIsclose mass 0 then .error ()
    else
      let parr := if npIsclose mass 1 then ps else ps.map (· / mass)
      if |parr.sum - 1| > npChoiceAtol then .error ()
      else .ok (List.zip lst (parr.map (· / parr.sum)))

/-! ### The networkx-backed graph (`kala/models/graphs.py`)

`SimpleGraph` keeps the wrapped `nx.Graph` (a set of integer positions plus
undirected edges), the `_nodes` list in which a removed node leaves a `None`
tombstone, and the `_addition_order` dictionary from a node's `uuid` to its
position, which `remove_node` never cleans up.  Agent uuids and string ids
are modelled by naturals. -/

structure GAgent where
  uuid : Nat
  is_saver : Bool
  homophily : Option ℚ
deriving Repr, DecidableEq

inductive NodeRef : Type
  | byAgent (a : GAgent)
  | byId (s : Nat)
  | byPos (p : Nat)

structure SGraph where
  nxNodes : List Nat
  nxEdges : List (Nat × Nat)
  nodes : List (Option GAgent)
  additionOrder : List (Nat × Nat)
deriving DecidableEq

/-- Embeds `SimpleGraph._get_pos_from_node`: an agent or a string id is looked
up in `_addition_order` (`KeyError` when missing, modelled by `throw`); an int
is passed through unchecked. -/
def getPosFromNode (S : SGraph) : NodeRef → Except Unit Nat
  | .byAgent a =>
    match S.additionOrder.lookup a.uuid with
    | some p => .ok p
    | none => .error ()
  | .byId s =>
    match S.additionOrder.lookup s with
    | some p => .ok p
    | none => .error ()
  | .byPos p => .ok p

def hasEdge (S : SGraph) (u v : Nat) : Bool :=
  S.nxEdges.any (fun e => (e.1 = u ∧ e.2 = v) ∨ (e.1 = v ∧ e.2 = u))

def insertIfAbsent (x : Nat) (l : List Nat) : List Nat := if x ∈ l then l else l ++ [x]

/-- Embeds `nx.Graph.add_edge`, which silently adds missing endpoints to the
graph before inserting the edge. -/
def nxAddEdge (S : SGraph) (u v : Nat) : SGraph :=
  { S with nxNodes := insertIfAbsent v (insertIfAbsent u S.nxNodes),
           nxEdges := if hasEdge S u v then S.nxEdges else S.nxEdges ++ [(u, v)] }

/-- Embeds `SimpleGraph.add_edge`: a `KeyError` from position resolution is
caught and reported as `False`; an existing edge or a self-loop also gives
`False`; otherwise the edge is added to the wrapped graph and `True` is
returned.  The method never raises. -/
def addEdge (S : SGraph) (u v : NodeRef) : Bool × SGraph :=
  match getPosFromNode S u, getPosFromNode S v with
  | .ok pu, .ok pv =>
    if hasEdge S pu pv then (false, S)
    else if pu = pv then (false, S)
    else (true, nxAddEdge S pu pv)
  | _, _ => (false, S)

/-- Embeds `SimpleGraph.remove_edge`: position resolution may raise a
`KeyError` (not caught); `nx.Graph.remove_edge` on a missing edge raises
`NetworkXError`, which is caught and reported as `False`. -/
def eraseEdges (l : List (Nat × Nat)) (pu pv : Nat) : List (Nat × Nat) :=
  l.filter (fun e => !((e.1 = pu ∧ e.2 = pv) ∨ (e.1 = pv ∧ e.2 = pu) : Bool))

def removeEdge (S : SGraph) (u v : NodeRef) : Except Unit (Bool × SGraph) :=
  match getPosFromNode S u with
  | .error e => .error e
  | .ok pu =>
    match getPosFromNode S v with
    | .error e => .error e
    | .ok pv =>
      if hasEdge S pu pv then
        .ok (true, { S with nxEdges := eraseEdges S.nxEdges pu pv })
      else
        .ok (false, S)

/-- Embeds `SimpleGraph.remove_node`: on success networkx drops the position
and its incident edges, and the `_nodes` entry becomes the `None` tombstone;
`_addition_order` is left untouched.  A missing position raises
`NetworkXError`, caught and reported as `False`. -/
def removeNode (S : SGraph) (r : NodeRef) : Except Unit (Bool × SGraph) :=
  match getPosFromNode S r with
  | .error e => .error e
  | .ok p =>
    if p ∈ S.nxNodes then
      .ok (true, { S with nxNodes := S.nxNodes.filter (fun q => q ≠ p),
                          nxEdges := S.nxEdges.filter (fun e => e.1 ≠ p ∧ e.2 ≠ p),
                          nodes := S.nodes.set p none })
    else
      .ok (false, S)

/-- Embeds `SimpleGraph.get_node`: resolve the position and index into
`_nodes` (an out-of-range index raises `IndexError`). -/
def getNode (S : SGraph) (r : NodeRef) : Except Unit (Option GAgent) :=
  match getPosFromNode S r with
  | .error e => .error e
  | .ok p =>
    match S.nodes[p]? with
    | some x => .ok x
    | none => .error ()

/-- Embeds `nx.Graph.neighbors`: raises on a position that is not in the
wrapped graph. -/
def nxNeighbors (S : SGraph) (p : Nat) : Except Unit (List Nat) :=
  if p ∈ S.nxNodes then
    .ok (S.nxEdges.filterMap (fun e =>
      if e.1 = p then some e.2 else if e.2 = p then some e.1 else none))
  else .error ()

/-- Embeds `SimpleGraph.get_neighbours`:
`list(filter(None, (self.get_node(i) for i in self._graph.neighbors(pos))))`,
dropping the `None` tombstones; an out-of-range neighbour index would raise
`IndexError`. -/
def getNeighbours (S : SGraph) (r : NodeRef) : Except Unit (List GAgent) :=
  match getPosFromNode S r with
  | .error e => .error e
  | .ok p =>
    match nxNeighbors S p with
    | .error e => .error e
    | .ok ns =>
      if ns.all (fun i => i < S.nodes.length) then
        .ok (ns.filterMap (fun i => S.nodes.getD i none))
      else .error ()

/-- Embeds `BaseGraph.select_random_neighbour` called with an agent: an empty
neighbourhood yields `None` (after a warning, not an exception); with a
homophily trait the weights are `hom` for a neighbour sharing `is_saver` and
`1 - hom` otherwise; a `ValueError` from `choice` is caught and yields `None`.
The value `some dist` stands for a random draw with distribution `dist`. -/
def homWeights (a : GAgent) (hom : ℚ) (neighs : List GAgent) : List ℚ :=
  neighs.map (fun n => if n.is_saver = a.is_saver then hom else 1 - hom)

def selectRandomNeighbour (S : SGraph) (a : GAgent) :
    Except Unit (Option (List (GAgent × ℚ))) :=
  match getNeighbours S (.byAgent a) with
  | .error e => .error e
  | .ok neighs =>
    if neighs.length = 0 then .ok none
    else
      let ps : Option (List ℚ) :=
        match a.homophily with
        | some hom => some (homWeights a hom neighs)
        | none => none
      match pyChoiceDist neighs ps with
      | .ok d => .ok (some d)
      | .error _ => .ok none

/-! ### Concrete states used by the claim theorems -/

def c2Mem : BDeque MemItem := ⟨2, [⟨1, 1, false, 0⟩, ⟨1, 2, false, 1⟩]⟩

def c1Agent : InvAgent :=
  ⟨⟨true, 0, 2, none⟩, ⟨true, some 0, 0, 0, none, 0, none⟩, fun _ => false⟩

def c1After : InvAgent :=
  ⟨⟨true, 2, 2, none⟩, ⟨true, some 0, 0, 0, none, 0, none⟩, fun _ => false⟩

def c4Start : TraitsState := ⟨false, none, 0, 0, none, 4, some (emptyDeque Bool 4)⟩

def c4Step (t : TraitsState) : TraitsState :=
  ((saverTraitsUpdate (allPastShouldUpdate 4) (some false) t).toOption).getD t

def c4Full : TraitsState := ⟨false, none, 0, 0, none, 4, some ⟨4, [false, false, false]⟩⟩


def g7A : GAgent := ⟨0, true, none⟩

def g7B : GAgent := ⟨1, true, none⟩

def g7C : GAgent := ⟨2, true, none⟩

def g7Start : SGraph :=
  ⟨[0, 1, 2], [(0, 1), (1, 2)], [some g7A, some g7B, some g7C], [(0, 0), (1, 1), (2, 2)]⟩

def g7Removed : SGraph :=
  ⟨[0, 2], [], [some g7A, none, some g7C], [(0, 0), (1, 1), (2, 2)]⟩

def g9Node : GAgent := ⟨0, true, some (1 / 10 ^ 9)⟩

def g9Nb : GAgent := ⟨1, true, none⟩

def g9TinyWeight : SGraph := ⟨[0, 1], [(0, 1)], [some g9Node, some g9Nb], [(0, 0), (1, 1)]⟩

def g9Node2 : GAgent := ⟨0, true, some (1 / 2 + 1 / 400000)⟩

def g9Nb2 : GAgent := ⟨2, true, none⟩

def g9NearOne : SGraph :=
  ⟨[0, 1, 2], [(0, 1), (0, 2)], [some g9Node2, some g9Nb, some g9Nb2], [(0, 0), (1, 1), (2, 2)]⟩

def g9Node3 : GAgent := ⟨0, true, some (3 / 10)⟩

def g9Nb3 : GAgent := ⟨2, false, none⟩

def g9Mixed : SGraph :=
  ⟨[0, 1, 2], [(0, 1), (0, 2)], [some g9Node3, some g9Nb, some g9Nb3], [(0, 0), (1, 1), (2, 2)]⟩

end Kala

namespace Kala

/-! ### Theorems for the claims -/

/-- C2: evaluation of the code at the failing input.  With `frac == 0` and a
full memory of capacity 2 containing zero lost matches, the claim (and the
spec's special case for `frac == 0`) says no flip may occur, but
`SaverFlipAfterFractionLost.update` flips `is_saver` and clears the memory,
because the second disjunct `losses >= memory_length * frac` is `0 >= 0` and
always holds, making the explicit `frac == 0 and losses > 0` special case in
the code unreachable dead code. -/
theorem C2_frac_zero_flip_bug :
    countLost c2Mem.items = 0 ∧
    saverFlipAfterFractionLost 0 ⟨true⟩ c2Mem = (⟨false⟩, ⟨2, []⟩) := by
  constructor
  · rfl
  · norm_num [saverFlipAfterFractionLost, c2Mem, countLost]

/-- C3: evaluation of the code at the failing input.  The claim says a rule
configured with memory capacity 0 never flips; but on a capacity-0 deque
(which is always "at capacity" since `len == maxlen == 0`)
`SaverFlipAfterFractionLost.update` flips `is_saver` on every call, because
`losses >= 0 * frac` is `0 >= 0`. -/
theorem C3_capacity_zero_flip_bug :
    saverFlipAfterFractionLost (1 / 2) ⟨true⟩ (emptyDeque MemItem 0) =
      (⟨false⟩, emptyDeque MemItem 0) := by
  norm_num [saverFlipAfterFractionLost, emptyDeque, countLost]

/-- C5: in deterministic mode `calculate_payoff` returns the base matrix entry
plus each agent's own `min_specialization`: saver/saver gives
`(1+de+s1, 1+de+s2)`, saver/non-saver gives `(1-di+s1, 1+s2)` and its mirror
image, non-saver pairs get `(1+s1, 1+s2)`; with `de = 0.15`, `di = 0.1` and
zero specializations the pairs are `(1.15, 1.15)` and `(0.9, 1.0)`. -/
theorem C5_deterministic_payoff_matrix (di de s1 s2 dr : ℚ) (μ : ℝ) (f : ℝ → ℝ)
    (h : cooperationChecks di de) :
    calculatePayoff (cooperationInit false di de μ f) dr ⟨true, s1⟩ ⟨true, s2⟩ =
      (1 + de + s1, 1 + de + s2) ∧
    calculatePayoff (cooperationInit false di de μ f) dr ⟨true, s1⟩ ⟨false, s2⟩ =
      (1 - di + s1, 1 + s2) ∧
    calculatePayoff (cooperationInit false di de μ f) dr ⟨false, s1⟩ ⟨true, s2⟩ =
      (1 + s1, 1 - di + s2) ∧
    calculatePayoff (cooperationInit false di de μ f) dr ⟨false, s1⟩ ⟨false, s2⟩ =
      (1 + s1, 1 + s2) ∧
    calculatePayoff (cooperationInit false (1 / 10) (3 / 20) μ f) dr ⟨true, 0⟩ ⟨true, 0⟩ =
      (23 / 20, 23 / 20) ∧
    calculatePayoff (cooperationInit false (1 / 10) (3 / 20) μ f) dr ⟨true, 0⟩ ⟨false, 0⟩ =
      (9 / 10, 1) := by
  refine ⟨?_, ?_, ?_, ?_, ?_, ?_⟩ <;>
    norm_num [calculatePayoff, cooperationInit, payoffMatrixInit, saverEncoding]

/-- Witness for C5 at `di = 0.1`, `de = 0.15`. -/
theorem C5_deterministic_payoff_matrix_witness :
    cooperationChecks (1 / 10) (3 / 20) ∧
    calculatePayoff (cooperationInit false (1 / 10) (3 / 20) 0 id) 1 ⟨true, 0⟩ ⟨true, 0⟩ =
      (23 / 20, 23 / 20) :=
  ⟨by norm_num [cooperationChecks],
    (C5_deterministic_payoff_matrix (1 / 10) (3 / 20) 0 0 1 0 id
      (by norm_num [cooperationChecks])).2.2.2.2.1⟩

theorem lognormal_var_inversion (v : ℝ) (hv : 0 ≤ v) :
    Real.exp (2 * 0 + Real.sqrt (paramVar v) ^ 2) *
      (Real.exp (Real.sqrt (paramVar v) ^ 2) - 1) = v := by
  have hs0 : 0 ≤ Real.sqrt (1 + 4 * v) := Real.sqrt_nonneg _
  have hssq : Real.sqrt (1 + 4 * v) ^ 2 = 1 + 4 * v := Real.sq_sqrt (by linarith)
  have hs1 : 1 ≤ Real.sqrt (1 + 4 * v) := by nlinarith [hssq, hs0]
  have hparam : paramVar v = Real.log ((1 + Real.sqrt (1 + 4 * v)) / 2) := by
    rw [paramVar, Real.log_div (by linarith) two_ne_zero]
  have hparam_nonneg : 0 ≤ paramVar v := by
    rw [hparam]
    apply Real.log_nonneg
    rw [le_div_iff₀ (by norm_num)]
    linarith
  have hsq : Real.sqrt (paramVar v) ^ 2 = paramVar v := Real.sq_sqrt hparam_nonneg
  have hpos : 0 < (1 + Real.sqrt (1 + 4 * v)) / 2 := by linarith
  rw [hsq, show 2 * (0 : ℝ) + paramVar v = paramVar v by ring, hparam, Real.exp_log hpos]
  linear_combination hssq / 4

/-- C6: for each saver-involving pair key, the sigma stored by the constructor
satisfies the target-variance equation with `μ = 0` exactly: writing `σ` for
the stored scale and `v` for the prescribed variance `dist_sigma_func(base
payoff)` (assumed nonnegative), `exp(2·0+σ²)·(exp(σ²)−1) = v`, so the
multiplicative log-normal noise has variance exactly `v`. -/
theorem C6_sigma_variance_calibration (di de : ℚ) (μ : ℝ) (f : ℝ → ℝ)
    (hss : 0 ≤ f ((1 + de : ℚ) : ℝ)) (hsn : 0 ≤ f ((1 - di : ℚ) : ℝ)) :
    (Real.exp (2 * 0 + ((cooperationInit true di de μ f).sigma (.saver, .saver)) ^ 2) *
      (Real.exp (((cooperationInit true di de μ f).sigma (.saver, .saver)) ^ 2) - 1) =
        f ((1 + de : ℚ) : ℝ)) ∧
    (Real.exp (2 * 0 + ((cooperationInit true di de μ f).sigma (.saver, .nonsaver)) ^ 2) *
      (Real.exp (((cooperationInit true di de μ f).sigma (.saver, .nonsaver)) ^ 2) - 1) =
        f ((1 - di : ℚ) : ℝ)) ∧
    (Real.exp (2 * 0 + ((cooperationInit true di de μ f).sigma (.nonsaver, .saver)) ^ 2) *
      (Real.exp (((cooperationInit true di de μ f).sigma (.nonsaver, .saver)) ^ 2) - 1) =
        f ((1 - di : ℚ) : ℝ)) := by
  refine ⟨?_, ?_, ?_⟩
  · simpa [cooperationInit] using lognormal_var_inversion _ hss
  · simpa [cooperationInit] using lognormal_var_inversion _ hsn
  · simpa [cooperationInit] using lognormal_var_inversion _ hsn

/-- Witness for C6 with `dist_sigma_func = id`, `de = 0.15`, `di = 0.1`. -/
theorem C6_sigma_variance_calibration_witness :
    (0 : ℝ) ≤ ((1 + 3 / 20 : ℚ) : ℝ) ∧
    Real.exp (2 * 0 + ((cooperationInit true (1 / 10) (3 / 20) 0 id).sigma
        (.saver, .saver)) ^ 2) *
      (Real.exp (((cooperationInit true (1 / 10) (3 / 20) 0 id).sigma
        (.saver, .saver)) ^ 2) - 1) = ((1 + 3 / 20 : ℚ) : ℝ) :=
  ⟨by norm_num,
    (C6_sigma_variance_calibration (1 / 10) (3 / 20) 0 id (by norm_num) (by norm_num)).1⟩

theorem spUpdate_ok_fields (payoff : ℚ) (sr : Option Bool)
    (rule : Option (List Bool → Bool)) (s s' : SPState)
    (h : spUpdate payoff sr rule s = .ok s') :
    s'.savings = s.savings + s.income_per_period * payoff ∧
    s'.income_per_period = s.income_per_period := by
  simp only [spUpdate] at h
  split at h
  · cases h; exact ⟨rfl, rfl⟩
  · split at h
    · cases h
    · split at h
      · cases h
      · split at h
        · cases h; exact ⟨rfl, rfl⟩
        · cases h; exact ⟨rfl, rfl⟩

theorem invUpdate_ok_fields (payoff : ℚ) (sr : Option Bool) (A A' : InvAgent)
    (h : invUpdate payoff sr A = .ok A') :
    A'.props.savings = A.props.savings + A.props.income_per_period * payoff ∧
    A'.props.income_per_period = A.props.income_per_period := by
  unfold invUpdate at h
  cases hp : spUpdate payoff sr none A.props
  case error e => rw [hp] at h; cases h
  case ok p' =>
    rw [hp] at h
    cases ht : saverTraitsUpdate A.rule sr A.traits
    case error e => rw [ht] at h; cases h
    case ok t' =>
      rw [ht] at h
      cases h
      exact spUpdate_ok_fields payoff sr none A.props p' hp

/-- C1 (amended): after any sequence of `update` calls that completes without
raising and carries payoffs p1..pn, the agent's `savings` equals its initial
savings plus `income_per_period * (p1 + ... + pn)` — `SaverProperties.update`
scales each payoff by the income, so `savings` equals the bare payoff sum
only when `income_per_period = 1`; saver-status flips along the way do not
affect it. -/
theorem C1_savings_scaled_by_income (l : List (ℚ × Option Bool)) (A A' : InvAgent)
    (h : iterInv l A = .ok A') :
    A'.props.savings =
      A.props.savings + A.props.income_per_period * (l.map Prod.fst).sum := by
  induction l generalizing A with
  | nil =>
    unfold iterInv at h
    cases h
    simp
  | cons u l ih =>
    unfold iterInv at h
    cases hA1 : invUpdate u.1 u.2 A
    case error e => rw [hA1] at h; cases h
    case ok A1 =>
      rw [hA1] at h
      obtain ⟨h1, h2⟩ := invUpdate_ok_fields u.1 u.2 A A1 hA1
      have hrec := ih A1 h
      rw [hrec, h1, h2]
      simp
      ring

/-- C1 counterexample: one `update` call with payoff 1 on an agent whose
`income_per_period` is 2 leaves `savings = 2`, while the claim (`savings`
equals the payoff sum regardless of `income_per_period`) demands 1. -/
theorem C1_counterexample :
    iterInv [(1, some false)] c1Agent = .ok c1After ∧
    ([((1 : ℚ), some false)].map Prod.fst).sum = 1 ∧
    c1After.props.savings = 2 ∧ (2 : ℚ) ≠ 1 := by
  refine ⟨?_, by norm_num, by norm_num [c1After], by norm_num⟩
  norm_num [iterInv, invUpdate, spUpdate, saverTraitsUpdate, c1Agent, c1After]

/-- Witness for C1 on the concrete one-call sequence. -/
theorem C1_savings_scaled_by_income_witness :
    c1After.props.savings = c1Agent.props.savings + c1Agent.props.income_per_period *
      (([((1 : ℚ), some false)]).map Prod.fst).sum :=
  C1_savings_scaled_by_income [(1, some false)] c1Agent c1After
    (by norm_num [iterInv, invUpdate, spUpdate, saverTraitsUpdate, c1Agent, c1After])

/-- C4: with capacity `c > 0`, (i) none of the five memory rules fires on a
memory shorter than `c`; (ii) below capacity `SaverTraits.update` only appends
to the memory and never flips; (iii) once the (appended) memory reaches
capacity and the rule fires, `is_saver` flips exactly once and a fresh empty
memory of capacity `c` is installed; (iv)+(v) `SaverFlipAfterFractionLost`
likewise returns unchanged below capacity and flips-and-clears exactly when
its trigger holds at capacity; (vi) the concrete scenario: capacity 4,
all-past rule, eight consecutive losses flip `is_saver` exactly at the 4th
and the 8th call. -/
theorem C4_flip_once_at_capacity (c : Nat) (hc : 0 < c) (frac : ℚ) (w : List ℚ)
    (R : List Bool → Bool) (hR : ∀ m, R m = true → m.length = c)
    (t : TraitsState) (d : BDeque Bool) (b : Bool)
    (hcap : t.updates_from_n_last_games = c) (hmem : t.memory = some d)
    (hmax : d.maxlen = c) :
    (∀ m : List Bool, m.length < c →
      averageShouldUpdate c m = false ∧ fractionShouldUpdate c frac m = false ∧
      allPastShouldUpdate c m = false ∧ anyPastShouldUpdate c m = false ∧
      (w.length = c → weightedShouldUpdate c w frac m = .ok false)) ∧
    (d.items.length + 1 < c →
      saverTraitsUpdate R (some b) t = .ok { t with memory := some (dequeAppend d b) }) ∧
    (R (dequeAppend d b).items = true →
      saverTraitsUpdate R (some b) t =
        .ok { t with is_saver := !t.is_saver, memory := some (emptyDeque Bool c) }) ∧
    (∀ (props : NewSaverProps) (dm : BDeque MemItem), dm.maxlen = c →
      dm.items.length < c → saverFlipAfterFractionLost frac props dm = (props, dm)) ∧
    (∀ (props : NewSaverProps) (dm : BDeque MemItem), dm.maxlen = c →
      dm.items.length = c →
      ((frac = 0 ∧ countLost dm.items > 0) ∨
        ((countLost dm.items : ℚ) ≥ (dm.maxlen : ℚ) * frac)) →
      saverFlipAfterFractionLost frac props dm =
        ({ is_saver := !props.is_saver }, { dm with items := [] })) ∧
    ((List.range 8).map (fun k => (c4Step^[k + 1] c4Start).is_saver) =
      [false, false, false, true, true, true, true, false]) := by
  refine ⟨?_, ?_, ?_, ?_, ?_, by decide⟩
  · intro m hm
    have hne : m.length ≠ c := Nat.ne_of_lt hm
    refine ⟨?_, ?_, ?_, ?_, ?_⟩
    · simp [averageShouldUpdate, hne]
    · simp [fractionShouldUpdate, hne]
    · simp [allPastShouldUpdate, hne]
    · simp [anyPastShouldUpdate, hne]
    · intro hw
      simp [weightedShouldUpdate, hw, hne]
  · intro hlt
    have hlen : (dequeAppend d b).items = d.items ++ [b] := by
      have hc0 : ¬ (c = 0) := by omega
      have hlt2 : d.items.length < c := by omega
      simp [dequeAppend, hmax, hc0, hlt2]
    have hRf : R (dequeAppend d b).items = false := by
      cases hRv : R (dequeAppend d b).items
      · rfl
      · exfalso
        have := hR _ hRv
        rw [hlen] at this
        simp at this
        omega
    simp [saverTraitsUpdate, hcap, Nat.pos_iff_ne_zero.mp hc, hmem, hRf]
  · intro hRt
    simp [saverTraitsUpdate, hcap, Nat.pos_iff_ne_zero.mp hc, hmem, hRt]
  · intro props dm h1 h2
    have : dm.items.length ≠ dm.maxlen := by omega
    simp [saverFlipAfterFractionLost, this]
  · intro props dm h1 h2 h3
    have heq : ¬ (dm.items.length ≠ dm.maxlen) := by omega
    rw [saverFlipAfterFractionLost, if_neg heq, if_pos h3]

/-- Witness for C4: the all-past rule with capacity 4 on a memory holding
three losses flips on the fourth loss and empties the memory. -/
theorem C4_flip_once_at_capacity_witness :
    saverTraitsUpdate (allPastShouldUpdate 4) (some false) c4Full =
      .ok { c4Full with is_saver := !c4Full.is_saver, memory := some (emptyDeque Bool 4) } :=
  (C4_flip_once_at_capacity 4 (by norm_num) (1 / 2) [1, 1, 1, 1] (allPastShouldUpdate 4)
    (fun m hm => by simp [allPastShouldUpdate] at hm; exact hm.1)
    c4Full ⟨4, [false, false, false]⟩ false rfl rfl rfl).2.2.1 (by decide)

/-- C10: `ChangeDifferentialEfficient.apply` with new differential `d` rewrites
only the `("saver","saver")` payoff-matrix entry to `(1+d, 1+d)`; every other
matrix entry, the stochastic flag, the stored mean, and the whole `_sigma`
map — still calibrated from the original `de` — are unchanged, so the noise
variance is not re-derived from the new payoff. -/
theorem C10_change_differential_frame (d di de : ℚ) (μ : ℝ) (f : ℝ → ℝ) :
    (changeDifferentialEfficientApply d (cooperationInit true di de μ f)).payoff_matrix
        (.saver, .saver) = (1 + d, 1 + d) ∧
    (∀ k, k ≠ (Enc.saver, Enc.saver) →
      (changeDifferentialEfficientApply d (cooperationInit true di de μ f)).payoff_matrix k =
        payoffMatrixInit de di k) ∧
    (changeDifferentialEfficientApply d (cooperationInit true di de μ f)).sigma =
      (cooperationInit true di de μ f).sigma ∧
    (changeDifferentialEfficientApply d (cooperationInit true di de μ f)).stochastic = true ∧
    (changeDifferentialEfficientApply d (cooperationInit true di de μ f)).dist_mean = μ ∧
    (changeDifferentialEfficientApply d (cooperationInit true di de μ f)).sigma
        (.saver, .saver) = Real.sqrt (paramVar (f ((1 + de : ℚ) : ℝ))) := by
  refine ⟨rfl, ?_, rfl, rfl, rfl, rfl⟩
  intro k hk
  simp [changeDifferentialEfficientApply, cooperationInit, hk]

/-- Witness for C10 at `d = 0.25`, `di = 0.1`, `de = 0.15`. -/
theorem C10_change_differential_frame_witness :
    (changeDifferentialEfficientApply (1 / 4) (cooperationInit true (1 / 10) (3 / 20) 0
        id)).payoff_matrix (.saver, .saver) = (5 / 4, 5 / 4) ∧
    (changeDifferentialEfficientApply (1 / 4) (cooperationInit true (1 / 10) (3 / 20) 0
        id)).payoff_matrix (.saver, .nonsaver) = (9 / 10, 1) := by
  obtain ⟨h1, h2, -⟩ := C10_change_differential_frame (1 / 4) (1 / 10) (3 / 20) 0 id
  constructor
  · rw [h1]; norm_num
  · rw [h2 (.saver, .nonsaver) (by simp)]
    norm_num [payoffMatrixInit]

theorem getPosFromNode_congr (S S' : SGraph) (r : NodeRef)
    (h : S'.additionOrder = S.additionOrder) :
    getPosFromNode S' r = getPosFromNode S r := by
  cases r <;> simp [getPosFromNode, h]

theorem hasEdge_eraseEdges_self (S : SGraph) (l : List (Nat × Nat)) (pu pv : Nat) :
    hasEdge { S with nxEdges := eraseEdges l pu pv } pu pv = false := by
  rw [hasEdge, List.any_eq_false]
  intro e he
  rw [eraseEdges, List.mem_filter] at he
  have h2 := he.2
  simp at h2 ⊢
  tauto

/-- C7 counterexample: after a successful `remove_node` of agent b, b is
absent from the graph (`get_node` yields `None`), yet `add_edge(a, b)`
returns `True` — b's uuid is still in `_addition_order`, so the positions
resolve and networkx silently re-adds the bare removed position — whereas
the claim requires `False` for an absent endpoint. -/
theorem C7_counterexample :
    removeNode g7Start (.byId 1) = .ok (true, g7Removed) ∧
    getNode g7Removed (.byAgent g7B) = .ok none ∧
    (addEdge g7Removed (.byAgent g7A) (.byAgent g7B)).1 = true :=
  ⟨rfl, rfl, rfl⟩

/-- C7 (amended): `add_edge(u, v)` returns `False` without raising when an
endpoint's identifier cannot be resolved (`KeyError` caught), when the edge
already exists, or when both endpoints resolve to the same position
(`u == v`); in every other case it returns `True` — including when a
resolved endpoint was previously removed from the graph.  Consequently
`add_edge` twice on the same fresh pair returns `True` then `False`, and
`remove_edge` twice afterwards returns `True` then `False`. -/
theorem C7_add_edge_contract (S : SGraph) (u v : NodeRef) :
    (getPosFromNode S u = .error () → addEdge S u v = (false, S)) ∧
    (∀ pu, getPosFromNode S u = .ok pu → getPosFromNode S v = .error () →
      addEdge S u v = (false, S)) ∧
    (∀ pu pv, getPosFromNode S u = .ok pu → getPosFromNode S v = .ok pv →
      hasEdge S pu pv = true → addEdge S u v = (false, S)) ∧
    (∀ pu, getPosFromNode S u = .ok pu → getPosFromNode S v = .ok pu →
      addEdge S u v = (false, S)) ∧
    (∀ pu pv, getPosFromNode S u = .ok pu → getPosFromNode S v = .ok pv →
      hasEdge S pu pv = false → pu ≠ pv →
      addEdge S u v = (true, nxAddEdge S pu pv)) ∧
    (∀ S', addEdge S u v = (true, S') →
      (addEdge S' u v).1 = false ∧
      ∃ S'', removeEdge S' u v = .ok (true, S'') ∧ removeEdge S'' u v = .ok (false, S'')) := by
  refine ⟨?_, ?_, ?_, ?_, ?_, ?_⟩
  · intro hu; simp [addEdge, hu]
  · intro pu hu hv; simp [addEdge, hu, hv]
  · intro pu pv hu hv he; simp [addEdge, hu, hv, he]
  · intro pu hu hv
    simp only [addEdge, hu, hv]
    split
    · rfl
    · simp
  · intro pu pv hu hv he hne; simp [addEdge, hu, hv, he, hne]
  · intro S' hadd
    cases hu : getPosFromNode S u
    case error e => cases e; rw [addEdge, hu] at hadd; simp at hadd
    case ok pu =>
    cases hv : getPosFromNode S v
    case error e => cases e; rw [addEdge, hu, hv] at hadd; simp at hadd
    case ok pv =>
    rw [addEdge, hu, hv] at hadd
    by_cases he : hasEdge S pu pv = true
    · simp [he] at hadd
    · by_cases hpp : pu = pv
      · simp [he, hpp] at hadd
      · simp only [he, hpp, if_false, ite_false, Bool.false_eq_true, if_neg] at hadd
        have hS' : S' = nxAddEdge S pu pv := by
          simp at hadd
          tauto
        have horder : S'.additionOrder = S.additionOrder := by rw [hS']; rfl
        have hu' : getPosFromNode S' u = .ok pu := by
          rw [getPosFromNode_congr S S' u horder, hu]
        have hv' : getPosFromNode S' v = .ok pv := by
          rw [getPosFromNode_congr S S' v horder, hv]
        have hedges' : S'.nxEdges = S.nxEdges ++ [(pu, pv)] := by
          rw [hS']
          simp [nxAddEdge, he]
        have he' : hasEdge S' pu pv = true := by
          simp [hasEdge, hedges']
        constructor
        · simp [addEdge, hu', hv', he']
        · refine ⟨{ S' with nxEdges := eraseEdges S'.nxEdges pu pv }, ?_, ?_⟩
          · simp [removeEdge, hu', hv', he']
          · have horder2 : ({ S' with nxEdges := eraseEdges S'.nxEdges pu pv } : SGraph).additionOrder
                = S.additionOrder := horder
            have hu2 : getPosFromNode { S' with nxEdges := eraseEdges S'.nxEdges pu pv } u = .ok pu := by
              rw [getPosFromNode_congr S _ u horder2, hu]
            have hv2 : getPosFromNode { S' with nxEdges := eraseEdges S'.nxEdges pu pv } v = .ok pv := by
              rw [getPosFromNode_congr S _ v horder2, hv]
            have hne2 : hasEdge { S' with nxEdges := eraseEdges S'.nxEdges pu pv } pu pv = false :=
              hasEdge_eraseEdges_self S' S'.nxEdges pu pv
            simp [removeEdge, hu2, hv2, hne2]

/-- Witness for C7: adding the missing edge (a, c) succeeds, and adding it a
second time fails. -/
theorem C7_add_edge_contract_witness :
    addEdge g7Start (.byAgent g7A) (.byAgent g7C) = (true, nxAddEdge g7Start 0 2) ∧
    (addEdge (nxAddEdge g7Start 0 2) (.byAgent g7A) (.byAgent g7C)).1 = false := by
  obtain ⟨-, -, -, -, h5, h6⟩ := C7_add_edge_contract g7Start (.byAgent g7A) (.byAgent g7C)
  have hadd := h5 0 2 rfl rfl (by decide) (by decide)
  exact ⟨hadd, (h6 _ hadd).1⟩

/-- C8: after a successful `remove_node` of the agent `a` occupying position
`p` (and occupying no other position), `get_node` at `p` yields `None`,
`get_neighbours` of every remaining node no longer contains `a`, `get_node`
at every other position is unchanged, and `_addition_order` (the position
identity map) is untouched, so externally held position references stay
valid. -/
theorem C8_remove_node_frame (S S' : SGraph) (r : NodeRef) (p : Nat) (a : GAgent)
    (hres : getPosFromNode S r = .ok p)
    (hok : removeNode S r = .ok (true, S'))
    (ha : S.nodes[p]? = some (some a))
    (hinj : ∀ q, q ≠ p → q < S.nodes.length → S.nodes.getD q none ≠ some a) :
    getNode S' (.byPos p) = .ok none ∧
    (∀ q ns, getNeighbours S' (.byPos q) = .ok ns → a ∉ ns) ∧
    (∀ q, q ≠ p → getNode S' (.byPos q) = getNode S (.byPos q)) ∧
    S'.additionOrder = S.additionOrder := by
  have hp : p < S.nodes.length := (List.getElem?_eq_some_iff.mp ha).1
  rw [removeNode, hres] at hok
  by_cases hmem : p ∈ S.nxNodes
  case neg => simp [hmem] at hok
  case pos =>
  simp only [hmem, if_true, if_pos] at hok
  have hS' : S' = { S with nxNodes := S.nxNodes.filter (fun q => q ≠ p),
                           nxEdges := S.nxEdges.filter (fun e => e.1 ≠ p ∧ e.2 ≠ p),
                           nodes := S.nodes.set p none } := by
    injection hok with h1
    injection h1 with h2 h3
    exact h3.symm
  refine ⟨?_, ?_, ?_, ?_⟩
  · rw [getNode]
    simp only [getPosFromNode]
    rw [hS']
    simp [List.getElem?_set_self hp]
  · intro q ns hns hmem2
    rw [getNeighbours] at hns
    simp only [getPosFromNode] at hns
    rw [nxNeighbors] at hns
    by_cases hq : q ∈ S'.nxNodes
    case neg => simp [hq] at hns
    case pos =>
    simp only [hq, if_true, if_pos] at hns
    by_cases hall : (S'.nxEdges.filterMap (fun e =>
        if e.1 = q then some e.2 else if e.2 = q then some e.1 else none)).all
        (fun i => i < S'.nodes.length)
    case neg => simp [hall] at hns
    case pos =>
    rw [if_pos hall] at hns
    cases hns
    rw [List.mem_filterMap] at hmem2
    obtain ⟨i, hi, hgd⟩ := hmem2
    rw [List.mem_filterMap] at hi
    obtain ⟨e, he, hie⟩ := hi
    have hep : e.1 ≠ p ∧ e.2 ≠ p := by
      rw [hS'] at he
      simp only [List.mem_filter] at he
      have := he.2
      simpa using this
    have hip : i ≠ p := by
      by_cases h1 : e.1 = q
      · simp [h1] at hie; omega
      · by_cases h2 : e.2 = q
        · simp [h1, h2] at hie; omega
        · simp [h1, h2] at hie
    have hilen : i < S.nodes.length := by
      have := List.all_eq_true.mp hall i (List.mem_filterMap.mpr ⟨e, he, hie⟩)
      simp only [decide_eq_true_eq] at this
      rw [hS'] at this
      simpa using this
    have : S'.nodes.getD i none = S.nodes.getD i none := by
      rw [hS']
      simp only [List.getD_eq_getElem?_getD]
      rw [List.getElem?_set_ne (fun h => hip h.symm)]
    rw [this] at hgd
    exact hinj i hip hilen hgd
  · intro q hq
    rw [getNode, getNode]
    simp only [getPosFromNode]
    have : S'.nodes[q]? = S.nodes[q]? := by
      rw [hS']
      exact List.getElem?_set_ne (fun h => hq h.symm)
    rw [this]
  · rw [hS']

/-- Witness for C8 on the three-node path graph with its middle node removed. -/
theorem C8_remove_node_frame_witness :
    getNode g7Removed (.byPos 1) = .ok none ∧
    g7Removed.additionOrder = g7Start.additionOrder := by
  obtain ⟨h1, -, -, h4⟩ := C8_remove_node_frame g7Start g7Removed (.byId 1) 1 g7B rfl rfl rfl
    (by intro q hq hlt
        simp only [g7Start, List.length_cons, List.length_nil] at hlt
        interval_cases q <;> simp_all [g7Start, g7A, g7B, g7C])
  exact ⟨h1, h4⟩

theorem sum_map_div (l : List ℚ) (c : ℚ) : (l.map (· / c)).sum = l.sum / c := by
  induction l with
  | nil => simp
  | cons x l ih => simp [ih, add_div]

theorem pyChoiceDist_some {α : Type} (lst : List α) (ps : List ℚ) :
    pyChoiceDist lst (some ps) =
      (if ps.length ≠ lst.length then .error ()
       else if ps.any (fun x => x < 0) then .error ()
       else if npIsclose ps.sum 0 then .error ()
       else
         let parr := if npIsclose ps.sum 1 then ps else ps.map (· / ps.sum)
         if |parr.sum - 1| > npChoiceAtol then .error ()
         else .ok (List.zip lst (parr.map (· / parr.sum)))) := rfl

theorem selectRandomNeighbour_reduce (S : SGraph) (a : GAgent) (hom : ℚ) (ns : List GAgent)
    (hn : getNeighbours S (.byAgent a) = .ok ns) (hh : a.homophily = some hom) :
    selectRandomNeighbour S a =
      (if ns.length = 0 then .ok none
       else match pyChoiceDist ns (some (homWeights a hom ns)) with
         | .ok d => .ok (some d)
         | .error _ => .ok none) := by
  rw [selectRandomNeighbour, hn, hh]

/-- C9 (amended): `select_random_neighbour` returns `None` and never raises
when the node has no neighbours, when the homophily weight total is within
numpy's `isclose` absolute tolerance of zero (`|Σw| ≤ 1e-8`, in particular
all weights zero), or when the total is within `isclose` tolerance of one
(`|Σw−1| ≤ 1e-8 + 1e-5`) yet differs from 1 by more than `sqrt(eps) = 2⁻²⁶`
so that numpy rejects the unnormalized vector; in every other case the draw
is proportional to the homophily weights (`hom` for a neighbour sharing
`is_saver`, `1 − hom` otherwise), renormalized by their total. -/
theorem C9_select_neighbour_contract (S : SGraph) (a : GAgent) (hom : ℚ) (ns : List GAgent)
    (hn : getNeighbours S (.byAgent a) = .ok ns)
    (hh : a.homophily = some hom) (h0 : 0 ≤ hom) (h1 : hom ≤ 1) :
    (ns = [] → selectRandomNeighbour S a = .ok none) ∧
    (ns ≠ [] → |(homWeights a hom ns).sum| ≤ npIscloseAtol →
      selectRandomNeighbour S a = .ok none) ∧
    (ns ≠ [] → |(homWeights a hom ns).sum - 1| ≤ npIscloseAtol + npIscloseRtol →
      npChoiceAtol < |(homWeights a hom ns).sum - 1| →
      selectRandomNeighbour S a = .ok none) ∧
    (ns ≠ [] → npIscloseAtol < |(homWeights a hom ns).sum| →
      (¬ |(homWeights a hom ns).sum - 1| ≤ npIscloseAtol + npIscloseRtol ∨
        |(homWeights a hom ns).sum - 1| ≤ npChoiceAtol) →
      selectRandomNeighbour S a =
        .ok (some (List.zip ns
          ((homWeights a hom ns).map (· / (homWeights a hom ns).sum))))) := by
  have hlen : (homWeights a hom ns).length = ns.length := by simp [homWeights]
  have hnonneg : (homWeights a hom ns).any (fun x => x < 0) = false := by
    rw [List.any_eq_false]
    intro x hx
    rw [homWeights, List.mem_map] at hx
    obtain ⟨n, -, hxe⟩ := hx
    by_cases hsame : n.is_saver = a.is_saver
    · simp [hsame] at hxe; simp [← hxe]; linarith
    · simp [hsame] at hxe; simp [← hxe]; linarith
  refine ⟨?_, ?_, ?_, ?_⟩
  · intro he
    rw [selectRandomNeighbour_reduce S a hom ns hn hh]
    simp [he]
  · intro he hmass
    rw [selectRandomNeighbour_reduce S a hom ns hn hh,
      if_neg (by simpa using he)]
    have hpc : pyChoiceDist ns (some (homWeights a hom ns)) = .error () := by
      rw [pyChoiceDist_some,
        if_neg (by simp [hlen]), if_neg (by simp [hnonneg]),
        if_pos (show npIsclose (homWeights a hom ns).sum 0 = true by simp [npIsclose, hmass])]
    rw [hpc]
  · intro he hclose hfar
    rw [selectRandomNeighbour_reduce S a hom ns hn hh,
      if_neg (by simpa using he)]
    have hc0 : npIsclose (homWeights a hom ns).sum 0 = false := by
      have h2 := abs_le.mp hclose
      have h3 : npIscloseAtol < |(homWeights a hom ns).sum| := by
        rw [abs_of_pos (by norm_num [npIscloseAtol, npIscloseRtol] at h2 ⊢; linarith)]
        norm_num [npIscloseAtol, npIscloseRtol] at h2 ⊢
        linarith
      simp [npIsclose, not_le.mpr h3]
    have hc1 : npIsclose (homWeights a hom ns).sum 1 = true := by
      simp only [npIsclose, abs_one, decide_eq_true_eq,
        show npIscloseAtol + npIscloseRtol * 1 = npIscloseAtol + npIscloseRtol by ring]
      exact hclose
    have hpc : pyChoiceDist ns (some (homWeights a hom ns)) = .error () := by
      rw [pyChoiceDist_some,
        if_neg (by simp [hlen]), if_neg (by simp [hnonneg]), if_neg (by simp [hc0])]
      simp only [hc1, if_true]
      rw [if_pos hfar]
    rw [hpc]
  · intro he hbig hcase
    rw [selectRandomNeighbour_reduce S a hom ns hn hh,
      if_neg (by simpa using he)]
    have hc0 : npIsclose (homWeights a hom ns).sum 0 = false := by
      simp [npIsclose, not_le.mpr hbig]
    have hmass0 : (homWeights a hom ns).sum ≠ 0 := by
      intro hz
      rw [hz] at hbig
      norm_num [npIscloseAtol] at hbig
    rcases hcase with hA | hB
    · have hc1 : npIsclose (homWeights a hom ns).sum 1 = false := by
        simp only [npIsclose, abs_one,
          show npIscloseAtol + npIscloseRtol * 1 = npIscloseAtol + npIscloseRtol by ring]
        simpa using hA
      have hsum1 : ((homWeights a hom ns).map (· / (homWeights a hom ns).sum)).sum = 1 := by
        rw [sum_map_div]
        exact div_self hmass0
      have hpc : pyChoiceDist ns (some (homWeights a hom ns)) =
          .ok (List.zip ns ((homWeights a hom ns).map (· / (homWeights a hom ns).sum))) := by
        rw [pyChoiceDist_some,
          if_neg (by simp [hlen]), if_neg (by simp [hnonneg]), if_neg (by simp [hc0])]
        simp only [hc1, if_false, Bool.false_eq_true, ite_false]
        rw [if_neg (by rw [hsum1]; simp [npChoiceAtol])]
        rw [hsum1]
        simp only [div_one, List.map_id']
      rw [hpc]
    · have hc1 : npIsclose (homWeights a hom ns).sum 1 = true := by
        simp only [npIsclose, abs_one, decide_eq_true_eq,
          show npIscloseAtol + npIscloseRtol * 1 = npIscloseAtol + npIscloseRtol by ring]
        have := abs_nonneg ((homWeights a hom ns).sum - 1)
        norm_num [npIscloseAtol, npIscloseRtol, npChoiceAtol] at hB ⊢
        linarith
      have hpc : pyChoiceDist ns (some (homWeights a hom ns)) =
          .ok (List.zip ns ((homWeights a hom ns).map (· / (homWeights a hom ns).sum))) := by
        rw [pyChoiceDist_some,
          if_neg (by simp [hlen]), if_neg (by simp [hnonneg]), if_neg (by simp [hc0])]
        simp only [hc1, if_true]
        rw [if_neg (by simpa using hB)]
      rw [hpc]

/-- C9 counterexample: two inputs where the claim's "otherwise the draw is
proportional" clause fails on the code.  With homophily `1e-9` and a single
same-trait neighbour the weights are positive but their total falls inside
numpy's `isclose`-to-zero tolerance, and with homophily `0.5000025` and two
same-trait neighbours the total `1.000005` is inside the `isclose`-to-one
window but outside numpy's stricter `2⁻²⁶` tolerance: both return `None`
where the claim demands a proportional draw. -/
theorem C9_counterexample :
    selectRandomNeighbour g9TinyWeight g9Node = .ok none ∧
    selectRandomNeighbour g9NearOne g9Node2 = .ok none := by
  constructor
  · rw [selectRandomNeighbour_reduce g9TinyWeight g9Node (1 / 10 ^ 9) [g9Nb] rfl rfl,
      if_neg (by norm_num)]
    have hw : homWeights g9Node (1 / 10 ^ 9) [g9Nb] = [1 / 10 ^ 9] := by
      simp [homWeights, g9Node, g9Nb]
    have hpc : pyChoiceDist [g9Nb] (some (homWeights g9Node (1 / 10 ^ 9) [g9Nb])) =
        .error () := by
      rw [hw, pyChoiceDist_some,
        if_neg (by norm_num), if_neg (by norm_num),
        if_pos (show npIsclose ([(1 : ℚ) / 10 ^ 9]).sum 0 = true by
          simp [npIsclose, npIscloseAtol, npIscloseRtol]
          rw [abs_of_pos (by norm_num)]
          norm_num)]
    rw [hpc]
  · rw [selectRandomNeighbour_reduce g9NearOne g9Node2 (1 / 2 + 1 / 400000) [g9Nb, g9Nb2]
      rfl rfl, if_neg (by norm_num)]
    have hw : homWeights g9Node2 (1 / 2 + 1 / 400000) [g9Nb, g9Nb2] =
        [1 / 2 + 1 / 400000, 1 / 2 + 1 / 400000] := by
      simp [homWeights, g9Node2, g9Nb, g9Nb2]
    have hpc : pyChoiceDist [g9Nb, g9Nb2]
        (some (homWeights g9Node2 (1 / 2 + 1 / 400000) [g9Nb, g9Nb2])) = .error () := by
      rw [hw, pyChoiceDist_some,
        if_neg (by norm_num), if_neg (by norm_num),
        if_neg (show ¬ npIsclose ([(1 : ℚ) / 2 + 1 / 400000, 1 / 2 + 1 / 400000]).sum 0 = true by
          simp [npIsclose, npIscloseAtol, npIscloseRtol]
          rw [abs_of_pos (by norm_num)]
          norm_num)]
      rw [if_pos (show npIsclose ([(1 : ℚ) / 2 + 1 / 400000, 1 / 2 + 1 / 400000]).sum 1 = true by
          simp [npIsclose, npIscloseAtol, npIscloseRtol]
          rw [abs_of_pos (by norm_num)]
          norm_num)]
      rw [if_pos (show |([(1 : ℚ) / 2 + 1 / 400000, 1 / 2 + 1 / 400000]).sum - 1| >
          npChoiceAtol by
          simp [npChoiceAtol]
          rw [abs_of_pos (by norm_num)]
          norm_num)]
    rw [hpc]

/-- Witness for C9: homophily 0.3 with one same-trait and one other-trait
neighbour gives the proportional distribution (0.3, 0.7). -/
theorem C9_select_neighbour_contract_witness :
    selectRandomNeighbour g9Mixed g9Node3 = .ok (some [(g9Nb, 3 / 10), (g9Nb3, 7 / 10)]) := by
  have hw : homWeights g9Node3 (3 / 10) [g9Nb, g9Nb3] = [3 / 10, 7 / 10] := by
    simp [homWeights, g9Node3, g9Nb, g9Nb3]
    norm_num
  have h := (C9_select_neighbour_contract g9Mixed g9Node3 (3 / 10) [g9Nb, g9Nb3] rfl rfl
    (by norm_num) (by norm_num)).2.2.2 (by simp)
    (by rw [hw]; norm_num [npIscloseAtol])
    (Or.inr (by rw [hw]; norm_num [npChoiceAtol]))
  rw [h, hw]
  norm_num

end Kala
